import Mathlib

/-!
Verification of the message-ingestion and operational-resilience runtime of
`fuckyou-spam-rs` against its natural-language specification.

The Rust sources are shallowly embedded:
* `src/tasks/queue.rs`     → `Spam.MessageQueue` (two-lane FIFO queue)
* `src/telegram/handler.rs`→ `Spam.handle_network_failure` (watchdog)
* `src/infrastructure/shutdown.rs` → `Spam.WatchChannel` (shutdown broadcast)
* `src/infrastructure/instance_guard.rs` → `Spam.acquireLoop`
* `src/web_content.rs`     → `Spam.WebContentFetcher.fetch`
* `src/tasks/processor.rs` → `Spam.handle_batch`, `Spam.apply_classification`,
  `Spam.escape_html`, `Spam.format_admin_log`

Machine integers are modelled as `Nat`/`Int`; timestamps are `Nat`
milliseconds; fallible operations return `Except`; the external world
(HTTP, Telegram API, tokio select races against the shutdown signal) is an
explicit environment of oracle functions.
-/

namespace Spam

/-! ## Two-lane priority queue (`src/tasks/queue.rs`) -/

/-- `Priority` from queue.rs: which lane a job is pushed to. -/
inductive Priority
  | high
  | normal
deriving DecidableEq, Repr

/-- `QueueSnapshot` from domain/types.rs. -/
structure QueueSnapshot where
  high_priority : Nat
  normal_priority : Nat
deriving DecidableEq, Repr

/-- `MessageQueue<T>`: two `VecDeque`s, each modelled as a list with its head
at the front (push_back appends at the tail). -/
structure MessageQueue (T : Type) where
  high : List T
  normal : List T
deriving DecidableEq, Repr

namespace MessageQueue

/-- `MessageQueue::new`. -/
def new {T : Type} : MessageQueue T := ⟨[], []⟩

/-- `MessageQueue::push`: append to the tail of the chosen lane. -/
def push {T : Type} (q : MessageQueue T) (p : Priority) (v : T) : MessageQueue T :=
  match p with
  | .high => { q with high := q.high ++ [v] }
  | .normal => { q with normal := q.normal ++ [v] }

/-- `MessageQueue::drain_ordered`: remove everything, high lane first, each
lane front-to-back; returns the drained items and the emptied queue. -/
def drain_ordered {T : Type} (q : MessageQueue T) : List T × MessageQueue T :=
  (q.high ++ q.normal, ⟨[], []⟩)

/-- `MessageQueue::snapshot`. -/
def snapshot {T : Type} (q : MessageQueue T) : QueueSnapshot :=
  ⟨q.high.length, q.normal.length⟩

/-- Run a sequence of `push` operations. -/
def pushSeq {T : Type} (q : MessageQueue T) (ops : List (Priority × T)) : MessageQueue T :=
  ops.foldl (fun acc op => acc.push op.1 op.2) q

end MessageQueue

/-- Whether a push op targets the high lane. -/
def isHighOp {T : Type} (op : Priority × T) : Bool :=
  match op.1 with
  | .high => true
  | .normal => false

theorem pushSeq_lanes {T : Type} (ops : List (Priority × T)) (q : MessageQueue T) :
    (MessageQueue.pushSeq q ops).high
      = q.high ++ (ops.filter isHighOp).map Prod.snd ∧
    (MessageQueue.pushSeq q ops).normal
      = q.normal ++ (ops.filter (fun op => !isHighOp op)).map Prod.snd := by
  induction ops generalizing q with
  | nil => simp [MessageQueue.pushSeq]
  | cons op rest ih =>
    obtain ⟨p, v⟩ := op
    cases p with
    | high =>
      have h := ih (q.push .high v)
      simpa [MessageQueue.pushSeq, MessageQueue.push, isHighOp, List.filter] using h
    | normal =>
      have h := ih (q.push .normal v)
      simpa [MessageQueue.pushSeq, MessageQueue.push, isHighOp, List.filter] using h

/-- **C1.** Any sequence of pushes on both lanes followed by one
`drain_ordered` returns exactly the high-lane items in push order followed by
the normal-lane items in push order; the drained sequence is a permutation of
all pushed items (no loss, no duplication); and the queue afterwards snapshots
as `{high: 0, normal: 0}`. -/
theorem drain_ordered_spec {T : Type} (ops : List (Priority × T)) :
    (MessageQueue.drain_ordered (MessageQueue.pushSeq MessageQueue.new ops)).1
      = (ops.filter isHighOp).map Prod.snd
        ++ (ops.filter (fun op => !isHighOp op)).map Prod.snd ∧
    (MessageQueue.drain_ordered (MessageQueue.pushSeq MessageQueue.new ops)).1.Perm
      (ops.map Prod.snd) ∧
    (MessageQueue.drain_ordered (MessageQueue.pushSeq MessageQueue.new ops)).2.snapshot
      = ⟨0, 0⟩ := by
  obtain ⟨hh, hn⟩ := pushSeq_lanes ops MessageQueue.new
  have hdrain :
      (MessageQueue.drain_ordered (MessageQueue.pushSeq MessageQueue.new ops)).1
        = (ops.filter isHighOp).map Prod.snd
          ++ (ops.filter (fun op => !isHighOp op)).map Prod.snd := by
    rw [MessageQueue.drain_ordered, hh, hn]
    simp [MessageQueue.new]
  refine ⟨hdrain, ?_, by simp [MessageQueue.drain_ordered, MessageQueue.snapshot]⟩
  rw [hdrain, ← List.map_append]
  exact (List.filter_append_perm isHighOp ops).map Prod.snd

/-! ## Network-failure watchdog (`src/telegram/handler.rs`)

Instants are `Nat` milliseconds; `Instant::duration_since` on tokio
instants saturates at zero, which `Nat` subtraction matches.
`consecutive_errors` is a `u32` bumped with `saturating_add(1)`. -/

/-- `WatchdogState` from handler.rs. -/
structure WatchdogState where
  first_error_at : Option Nat
  consecutive_errors : Nat
  last_restart_at : Option Nat
deriving DecidableEq, Repr

/-- `WatchdogState::default()`. -/
def WatchdogState.default : WatchdogState := ⟨none, 0, none⟩

/-- `ResilienceConfig` from config/env.rs (durations in milliseconds). -/
structure ResilienceConfig where
  network_error_threshold : Nat
  network_error_window : Nat
  restart_cooldown : Nat
deriving DecidableEq, Repr

/-- Externally observable effects of one `handle_network_failure` call:
whether the admin diagnostic notification was sent and whether the restart
callback was invoked. -/
structure FailureEffects where
  notified : Bool
  restarted : Bool
deriving DecidableEq, Repr

/-- `u32::saturating_add(1)`. -/
def satAdd1 (c : Nat) : Nat := if c < 2 ^ 32 - 1 then c + 1 else 2 ^ 32 - 1

/-- First half of `handle_network_failure`'s critical section: reset the
accumulation window when it is absent or expired, then count this failure. -/
def bumpFailure (cfg : ResilienceConfig) (st : WatchdogState) (now : Nat) : WatchdogState :=
  let st1 :=
    if (st.first_error_at.map (fun ts => decide (now - ts > cfg.network_error_window))).getD true
    then { st with first_error_at := some now, consecutive_errors := 0 }
    else st
  { st1 with consecutive_errors := satAdd1 st1.consecutive_errors }

/-- `UpdateListenerWatchdog::handle_network_failure` (handler.rs lines
116-181): bump the counter inside the window, then decide whether to trip.
Tripping is suppressed when the last restart is within the cooldown; an
actual trip resets state, records the restart instant, notifies the admin
group and invokes the restart callback once. -/
def handle_network_failure (cfg : ResilienceConfig) (st : WatchdogState) (now : Nat) :
    WatchdogState × FailureEffects :=
  let st2 := bumpFailure cfg st now
  if st2.consecutive_errors ≥ cfg.network_error_threshold then
    if (st2.last_restart_at.map (fun ts => decide (now - ts < cfg.restart_cooldown))).getD false
    then (st2, ⟨false, false⟩)
    else ({ first_error_at := none, consecutive_errors := 0, last_restart_at := some now },
          ⟨true, true⟩)
  else (st2, ⟨false, false⟩)

/-- Run a sequence of classified network failures at the given instants,
counting how many restart invocations occur. -/
def runFailures (cfg : ResilienceConfig) (st : WatchdogState) (times : List Nat) :
    WatchdogState × Nat :=
  times.foldl
    (fun acc now =>
      let (st2, eff) := handle_network_failure cfg acc.1 now
      (st2, acc.2 + (if eff.restarted then 1 else 0)))
    (st, 0)

/-- **C3.** When a classified network failure arrives and no accumulation
window is open, or the gap since the window's first failure exceeds the
configured window duration, the window resets before counting: the count
becomes 1 and the first-failure timestamp becomes now. Hence (whenever the
threshold is at least 2) such a failure never trips the watchdog: failures
separated by more than the window cannot accumulate toward the threshold. -/
theorem watchdog_window_reset (cfg : ResilienceConfig) (st : WatchdogState) (now : Nat)
    (hgap : st.first_error_at = none ∨
      ∃ ts, st.first_error_at = some ts ∧ cfg.network_error_window < now - ts) :
    bumpFailure cfg st now = ⟨some now, 1, st.last_restart_at⟩ ∧
    (2 ≤ cfg.network_error_threshold →
      handle_network_failure cfg st now
        = (⟨some now, 1, st.last_restart_at⟩, ⟨false, false⟩)) := by
  have hbump : bumpFailure cfg st now = ⟨some now, 1, st.last_restart_at⟩ := by
    rcases hgap with hnone | ⟨ts, hts, hwin⟩
    · simp [bumpFailure, hnone, satAdd1]
    · simp [bumpFailure, hts, hwin, satAdd1]
  refine ⟨hbump, fun hthr => ?_⟩
  have hlt : ¬ (cfg.network_error_threshold ≤ (1 : Nat)) := by omega
  simp [handle_network_failure, hbump, hlt]

/-- Witness for C3: threshold 3, window 60 s — a failure 61 s after the first
of an un-tripped sequence of 2 resets the count to 1 instead of tripping. -/
theorem watchdog_window_reset_witness :
    handle_network_failure ⟨3, 60000, 300000⟩ ⟨some 0, 2, none⟩ 61000
      = (⟨some 61000, 1, none⟩, ⟨false, false⟩) :=
  (watchdog_window_reset ⟨3, 60000, 300000⟩ ⟨some 0, 2, none⟩ 61000
    (Or.inr ⟨0, rfl, by norm_num⟩)).2 (by norm_num)

/-- **C4.** When the bumped consecutive-failure count reaches the threshold:
with no restart within the cooldown the watchdog resets its state (count 0,
first-failure cleared, last-restart := now), notifies the admin group and
invokes the restart callback exactly once; with a restart within the
cooldown the trip is suppressed (state keeps the bumped counter, no
notification, no restart). In particular, with threshold 3, window 60 s,
cooldown 300 s and a fresh watchdog, three qualifying failures within 10 s
yield exactly one restart invocation. -/
theorem watchdog_trip (cfg : ResilienceConfig) (st : WatchdogState) (now : Nat)
    (hthr : cfg.network_error_threshold ≤ (bumpFailure cfg st now).consecutive_errors) :
    ((∀ ts, st.last_restart_at = some ts → cfg.restart_cooldown ≤ now - ts) →
      handle_network_failure cfg st now = (⟨none, 0, some now⟩, ⟨true, true⟩)) ∧
    (∀ ts, st.last_restart_at = some ts → now - ts < cfg.restart_cooldown →
      handle_network_failure cfg st now = (bumpFailure cfg st now, ⟨false, false⟩)) ∧
    (runFailures ⟨3, 60000, 300000⟩ WatchdogState.default [0, 5000, 10000]).2 = 1 := by
  have hlast : (bumpFailure cfg st now).last_restart_at = st.last_restart_at := by
    simp only [bumpFailure]
    split <;> rfl
  refine ⟨fun hcool => ?_, fun ts hts hin => ?_, by decide⟩
  · have hnot :
        ¬ ((bumpFailure cfg st now).last_restart_at.map
            (fun ts => decide (now - ts < cfg.restart_cooldown))).getD false = true := by
      rw [hlast]
      cases h : st.last_restart_at with
      | none => simp
      | some ts =>
        have hc := hcool ts h
        simp only [Option.map_some', Option.getD_some, decide_eq_true_eq, not_lt]
        omega
    simp [handle_network_failure, hthr, hnot]
  · have hyes :
        ((bumpFailure cfg st now).last_restart_at.map
            (fun ts => decide (now - ts < cfg.restart_cooldown))).getD false = true := by
      rw [hlast, hts]
      simpa using hin
    simp [handle_network_failure, hthr, hyes]

/-- Witness for C4: with threshold 3 a third in-window failure trips — the
state resets and the restart callback fires — while the same situation 15 s
after a restart is suppressed with no invocation. -/
theorem watchdog_trip_witness :
    handle_network_failure ⟨3, 60000, 300000⟩ ⟨some 0, 2, none⟩ 10000
      = (⟨none, 0, some 10000⟩, ⟨true, true⟩) ∧
    handle_network_failure ⟨3, 60000, 300000⟩ ⟨some 100000, 2, some 90000⟩ 105000
      = (bumpFailure ⟨3, 60000, 300000⟩ ⟨some 100000, 2, some 90000⟩ 105000, ⟨false, false⟩) :=
  ⟨(watchdog_trip ⟨3, 60000, 300000⟩ ⟨some 0, 2, none⟩ 10000 (by decide)).1
      (fun ts hts => by simp at hts),
   (watchdog_trip ⟨3, 60000, 300000⟩ ⟨some 100000, 2, some 90000⟩ 105000 (by decide)).2.1
      90000 rfl (by norm_num)⟩

/-! ## Shutdown coordinator (`src/infrastructure/shutdown.rs`)

A tokio `watch` channel holding one `bool`. Every listener's receiver is a
view of the same shared slot, so a listener is modelled by the channel value
it observes; `subscribe` hands out such a view. `notified` returns without
awaiting exactly when the stored flag is already `true`. -/

/-- The shared `watch::channel(false)` slot. -/
structure WatchChannel where
  value : Bool
deriving DecidableEq, Repr

/-- `Shutdown::new().0`'s channel: flag initially false. -/
def Shutdown.new : WatchChannel := ⟨false⟩

/-- `Shutdown::trigger`: `send(true)`. -/
def Shutdown.trigger (_c : WatchChannel) : WatchChannel := ⟨true⟩

/-- `Shutdown::subscribe`: a new listener sees the same shared slot. -/
def Shutdown.subscribe (c : WatchChannel) : WatchChannel := c

/-- `ShutdownListener::is_triggered`: `*receiver.borrow()`. -/
def ShutdownListener.is_triggered (c : WatchChannel) : Bool := c.value

/-- `ShutdownListener::notified` returns immediately (without awaiting
`changed`) precisely when the flag is already set. -/
def ShutdownListener.notifiedImmediate (c : WatchChannel) : Bool := c.value

/-- `trigger` iterated `n` times. -/
def triggerN : Nat → WatchChannel → WatchChannel
  | 0, c => c
  | n + 1, c => Shutdown.trigger (triggerN n c)

/-- **C9.** Triggering the shutdown coordinator is idempotent: for every
`n ≥ 1`, `n` triggers leave the same observable state as one. Any listener —
subscribed before or after the trigger — that consults the coordinator once
it is triggered sees `is_triggered = true` and `notified` returns
immediately without awaiting a further event. -/
theorem shutdown_trigger_idempotent (n : Nat) (c : WatchChannel) (h : 1 ≤ n) :
    triggerN n c = Shutdown.trigger c ∧
    ShutdownListener.is_triggered (Shutdown.subscribe (triggerN n c)) = true ∧
    ShutdownListener.notifiedImmediate (Shutdown.subscribe (triggerN n c)) = true := by
  have htrig : triggerN n c = Shutdown.trigger c := by
    induction n with
    | zero => omega
    | succ m ih =>
      cases Nat.eq_or_lt_of_le h with
      | inl h1 =>
        have hm0 : m = 0 := by omega
        subst hm0
        simp [triggerN]
      | inr h1 =>
        have hm : 1 ≤ m := by omega
        simp [triggerN, ih hm, Shutdown.trigger]
  exact ⟨htrig, by simp [htrig, Shutdown.subscribe, Shutdown.trigger,
    ShutdownListener.is_triggered, ShutdownListener.notifiedImmediate]⟩

/-- Witness for C9: three triggers on a fresh coordinator equal one trigger,
and an already-triggered coordinator notifies immediately. -/
theorem shutdown_trigger_idempotent_witness :
    triggerN 3 Shutdown.new = Shutdown.trigger Shutdown.new ∧
    ShutdownListener.is_triggered (Shutdown.subscribe (triggerN 3 Shutdown.new)) = true ∧
    ShutdownListener.notifiedImmediate (Shutdown.subscribe (triggerN 3 Shutdown.new)) = true :=
  shutdown_trigger_idempotent 3 Shutdown.new (by norm_num)

/-! ## Instance guard (`src/infrastructure/instance_guard.rs`)

`InstanceGuard::acquire`'s retry loop. Each iteration opens the lock file
and calls `try_lock_exclusive`; the environment's answer to attempt `k` is
an oracle `outcomes k`. Attempt `k` happens after `k` sleeps of
`WAIT_INTERVAL`, so the elapsed time at its timeout check is
`k * WAIT_INTERVAL` milliseconds (attempt work itself modelled as
instantaneous). `ioError` stands for any open/lock I/O error whose kind is
not `WouldBlock`. -/

/-- Result of one `open` + `try_lock_exclusive` attempt. -/
inductive LockAttempt
  | success
  | wouldBlock
  | ioError (code : Nat)
deriving DecidableEq, Repr

/-- Result of `InstanceGuard::acquire`, recording how many lock attempts
were made before returning. -/
inductive AcquireResult
  | acquired (attempts : Nat)
  | fatalTimeout (attempts : Nat)
  | fatalIo (code : Nat) (attempts : Nat)
deriving DecidableEq, Repr

/-- `WAIT_INTERVAL` (instance_guard.rs line 20), in milliseconds. -/
def WAIT_INTERVAL : Nat := 500

/-- `MAX_WAIT` (instance_guard.rs line 21), in milliseconds. -/
def MAX_WAIT : Nat := 20000

/-- The `loop` of `InstanceGuard::acquire` starting at attempt `k`:
on success return the guard; on a non-`WouldBlock` I/O error return it
immediately; on `WouldBlock` run the stale-holder cleanup (whose own rare
I/O failure, which the source would equally propagate, is elided), fail
fatally if the elapsed time exceeds `MAX_WAIT`, otherwise sleep
`WAIT_INTERVAL` and retry. -/
def acquireLoop (outcomes : Nat → LockAttempt) (k : Nat) : AcquireResult :=
  match outcomes k with
  | .success => .acquired (k + 1)
  | .ioError c => .fatalIo c (k + 1)
  | .wouldBlock =>
    if h : k * WAIT_INTERVAL > MAX_WAIT then .fatalTimeout (k + 1)
    else acquireLoop outcomes (k + 1)
termination_by MAX_WAIT / WAIT_INTERVAL + 1 - k
decreasing_by
  simp only [WAIT_INTERVAL, MAX_WAIT] at *
  omega

/-- `InstanceGuard::acquire`: run the retry loop from the first attempt. -/
def InstanceGuard.acquire (outcomes : Nat → LockAttempt) : AcquireResult :=
  acquireLoop outcomes 0

theorem acquireLoop_success (outcomes : Nat → LockAttempt) (k : Nat)
    (h : outcomes k = .success) :
    acquireLoop outcomes k = .acquired (k + 1) := by
  rw [acquireLoop, h]

theorem acquireLoop_io (outcomes : Nat → LockAttempt) (k c : Nat)
    (h : outcomes k = .ioError c) :
    acquireLoop outcomes k = .fatalIo c (k + 1) := by
  rw [acquireLoop, h]

theorem acquireLoop_wb_stop (outcomes : Nat → LockAttempt) (k : Nat)
    (h : outcomes k = .wouldBlock) (hk : k * WAIT_INTERVAL > MAX_WAIT) :
    acquireLoop outcomes k = .fatalTimeout (k + 1) := by
  rw [acquireLoop, h]
  simp [hk]

theorem acquireLoop_wb_step (outcomes : Nat → LockAttempt) (k : Nat)
    (h : outcomes k = .wouldBlock) (hk : ¬ k * WAIT_INTERVAL > MAX_WAIT) :
    acquireLoop outcomes k = acquireLoop outcomes (k + 1) := by
  rw [acquireLoop, h]
  simp [hk]

theorem acquireLoop_allWB (outcomes : Nat → LockAttempt)
    (hall : ∀ i, outcomes i = .wouldBlock) :
    ∀ n k, 41 - k ≤ n → k ≤ 41 → acquireLoop outcomes k = .fatalTimeout 42 := by
  intro n
  induction n with
  | zero =>
    intro k hle hub
    have hk : k = 41 := by omega
    subst hk
    exact acquireLoop_wb_stop outcomes 41 (hall 41)
      (by simp [WAIT_INTERVAL, MAX_WAIT])
  | succ m ih =>
    intro k hle hub
    rcases Nat.lt_or_ge k 41 with hlt | hge
    · have hstep := acquireLoop_wb_step outcomes k (hall k)
        (by simp only [WAIT_INTERVAL, MAX_WAIT]; omega)
      rw [hstep]
      exact ih (k + 1) (by omega) (by omega)
    · have hk : k = 41 := by omega
      subst hk
      exact acquireLoop_wb_stop outcomes 41 (hall 41)
        (by simp [WAIT_INTERVAL, MAX_WAIT])

theorem acquireLoop_firstIo (outcomes : Nat → LockAttempt) :
    ∀ j k c, (∀ i, i < j → outcomes (k + i) = .wouldBlock) →
      outcomes (k + j) = .ioError c → (k + j) * WAIT_INTERVAL ≤ MAX_WAIT →
      acquireLoop outcomes k = .fatalIo c (k + j + 1) := by
  intro j
  induction j with
  | zero =>
    intro k c _ hio _
    simpa using acquireLoop_io outcomes k c (by simpa using hio)
  | succ m ih =>
    intro k c hwb hio hbound
    have hk : outcomes k = .wouldBlock := by simpa using hwb 0 (Nat.succ_pos m)
    have hstep := acquireLoop_wb_step outcomes k hk
      (by simp only [WAIT_INTERVAL, MAX_WAIT] at *; omega)
    rw [hstep]
    have h1 : ∀ i, i < m → outcomes (k + 1 + i) = .wouldBlock := by
      intro i hi
      have := hwb (i + 1) (by omega)
      simpa [Nat.add_assoc, Nat.add_comm 1 i] using this
    have h2 : outcomes (k + 1 + m) = .ioError c := by
      have : k + 1 + m = k + (m + 1) := by omega
      rw [this]
      exact hio
    have h3 : (k + 1 + m) * WAIT_INTERVAL ≤ MAX_WAIT := by
      have : k + 1 + m = k + (m + 1) := by omega
      rw [this]
      exact hbound
    have := ih (k + 1) c h1 h2 h3
    rw [this]
    congr 1
    omega

/-- **C8.** `InstanceGuard::acquire` retries a `WouldBlock` ("already
locked") attempt every `WAIT_INTERVAL = 500` ms up to the `MAX_WAIT = 20` s
ceiling and fails fatally once the ceiling is exceeded (when every attempt
says `WouldBlock` it makes exactly 42 attempts, the last check seeing
41 × 500 ms > 20 s); any other I/O error from opening or locking the file is
returned immediately at the attempt where it occurs, with no further
retries. -/
theorem instance_guard_retry (outcomes : Nat → LockAttempt) :
    WAIT_INTERVAL = 500 ∧ MAX_WAIT = 20000 ∧
    ((∀ i, outcomes i = .wouldBlock) →
      InstanceGuard.acquire outcomes = .fatalTimeout 42) ∧
    (∀ j c, (∀ i, i < j → outcomes i = .wouldBlock) → outcomes j = .ioError c →
      j * WAIT_INTERVAL ≤ MAX_WAIT →
      InstanceGuard.acquire outcomes = .fatalIo c (j + 1)) := by
  refine ⟨rfl, rfl, fun hall => ?_, fun j c hwb hio hbound => ?_⟩
  · exact acquireLoop_allWB outcomes hall 41 0 (by omega) (by omega)
  · have := acquireLoop_firstIo outcomes j 0 c (by simpa using hwb)
      (by simpa using hio) (by simpa using hbound)
    simpa [InstanceGuard.acquire] using this

/-- Witness for C8: a lock that never frees makes `acquire` fail fatally
after 42 attempts, and an oracle that reports a hard I/O error on the third
attempt makes `acquire` return that error right there. -/
theorem instance_guard_retry_witness :
    InstanceGuard.acquire (fun _ => .wouldBlock) = .fatalTimeout 42 ∧
    InstanceGuard.acquire
        (fun k => if k < 2 then .wouldBlock else .ioError 13) = .fatalIo 13 3 :=
  ⟨(instance_guard_retry (fun _ => .wouldBlock)).2.2.1 (fun _ => rfl),
   (instance_guard_retry (fun k => if k < 2 then .wouldBlock else .ioError 13)).2.2.2
      2 13 (fun i hi => by simp [hi]) (by norm_num) (by norm_num [WAIT_INTERVAL, MAX_WAIT])⟩

/-! ## HTML escaping (`src/tasks/processor.rs`, `escape_html`)

Strings are modelled as `List Char`. `dquote`/`squote` name the double- and
single-quote characters. -/

/-- The double-quote character. -/
def dquote : Char := Char.ofNat 34

/-- The single-quote character. -/
def squote : Char := Char.ofNat 39

/-- Per-character replacement of `escape_html`'s `match`; the five entity
strings pushed by the source are spelled as character lists. -/
def escapeChar (c : Char) : List Char :=
  if c = '&' then ['&', 'a', 'm', 'p', ';']
  else if c = '<' then ['&', 'l', 't', ';']
  else if c = '>' then ['&', 'g', 't', ';']
  else if c = dquote then ['&', 'q', 'u', 'o', 't', ';']
  else if c = squote then ['&', '#', '3', '9', ';']
  else [c]

/-- `escape_html` (processor.rs lines 266-279): fold every character through
the replacement table, concatenating the results. -/
def escape_html (s : List Char) : List Char := (s.map escapeChar).flatten

/-- Checks that every occurrence of a bare ampersand introduces one of the
five entities `escape_html` emits; a `'&'` followed by anything else is a
raw, unescaped ampersand. -/
def ampEscaped (l : List Char) : Bool :=
  match l with
  | [] => true
  | c :: rest =>
    if c = '&' then
      if rest.take 4 = ['a', 'm', 'p', ';'] then ampEscaped (rest.drop 4)
      else if rest.take 3 = ['l', 't', ';'] then ampEscaped (rest.drop 3)
      else if rest.take 3 = ['g', 't', ';'] then ampEscaped (rest.drop 3)
      else if rest.take 5 = ['q', 'u', 'o', 't', ';'] then ampEscaped (rest.drop 5)
      else if rest.take 4 = ['#', '3', '9', ';'] then ampEscaped (rest.drop 4)
      else false
    else ampEscaped rest
termination_by l.length
decreasing_by all_goals (simp; try omega)

/-- Decode the five HTML entities back to characters, leaving everything
else untouched. -/
def decodeEntities (l : List Char) : List Char :=
  match l with
  | [] => []
  | c :: rest =>
    if c = '&' then
      if rest.take 4 = ['a', 'm', 'p', ';'] then '&' :: decodeEntities (rest.drop 4)
      else if rest.take 3 = ['l', 't', ';'] then '<' :: decodeEntities (rest.drop 3)
      else if rest.take 3 = ['g', 't', ';'] then '>' :: decodeEntities (rest.drop 3)
      else if rest.take 5 = ['q', 'u', 'o', 't', ';'] then dquote :: decodeEntities (rest.drop 5)
      else if rest.take 4 = ['#', '3', '9', ';'] then squote :: decodeEntities (rest.drop 4)
      else c :: decodeEntities rest
    else c :: decodeEntities rest
termination_by l.length
decreasing_by all_goals (simp; try omega)

theorem escape_html_cons (c : Char) (s : List Char) :
    escape_html (c :: s) = escapeChar c ++ escape_html s := by
  simp [escape_html]

theorem escapeChar_no_special (c x : Char) (hx : x ∈ escapeChar c) :
    x ≠ '<' ∧ x ≠ '>' ∧ x ≠ dquote ∧ x ≠ squote := by
  unfold escapeChar at hx
  repeat' split at hx
  all_goals try (fin_cases hx <;> decide)
  simp only [List.mem_singleton] at hx
  subst hx
  exact ⟨by assumption, by assumption, by assumption, by assumption⟩

theorem ampEscaped_nil : ampEscaped [] = true := by
  rw [ampEscaped]

theorem ampEscaped_amp (l : List Char) :
    ampEscaped ('&' :: 'a' :: 'm' :: 'p' :: ';' :: l) = ampEscaped l := by
  rw [ampEscaped]
  simp [List.take, List.drop]

theorem ampEscaped_lt (l : List Char) :
    ampEscaped ('&' :: 'l' :: 't' :: ';' :: l) = ampEscaped l := by
  rw [ampEscaped]
  simp [List.take, List.drop]

theorem ampEscaped_gt (l : List Char) :
    ampEscaped ('&' :: 'g' :: 't' :: ';' :: l) = ampEscaped l := by
  rw [ampEscaped]
  simp [List.take, List.drop]

theorem ampEscaped_quot (l : List Char) :
    ampEscaped ('&' :: 'q' :: 'u' :: 'o' :: 't' :: ';' :: l) = ampEscaped l := by
  rw [ampEscaped]
  simp [List.take, List.drop]

theorem ampEscaped_num (l : List Char) :
    ampEscaped ('&' :: '#' :: '3' :: '9' :: ';' :: l) = ampEscaped l := by
  rw [ampEscaped]
  simp [List.take, List.drop]

theorem ampEscaped_plain (c : Char) (l : List Char) (h : ¬ c = '&') :
    ampEscaped (c :: l) = ampEscaped l := by
  rw [ampEscaped]
  simp [h]

theorem decodeEntities_nil : decodeEntities [] = [] := by
  rw [decodeEntities]

theorem decodeEntities_amp (l : List Char) :
    decodeEntities ('&' :: 'a' :: 'm' :: 'p' :: ';' :: l) = '&' :: decodeEntities l := by
  rw [decodeEntities]
  simp [List.take, List.drop]

theorem decodeEntities_lt (l : List Char) :
    decodeEntities ('&' :: 'l' :: 't' :: ';' :: l) = '<' :: decodeEntities l := by
  rw [decodeEntities]
  simp [List.take, List.drop]

theorem decodeEntities_gt (l : List Char) :
    decodeEntities ('&' :: 'g' :: 't' :: ';' :: l) = '>' :: decodeEntities l := by
  rw [decodeEntities]
  simp [List.take, List.drop]

theorem decodeEntities_quot (l : List Char) :
    decodeEntities ('&' :: 'q' :: 'u' :: 'o' :: 't' :: ';' :: l)
      = dquote :: decodeEntities l := by
  rw [decodeEntities]
  simp [List.take, List.drop]

theorem decodeEntities_num (l : List Char) :
    decodeEntities ('&' :: '#' :: '3' :: '9' :: ';' :: l)
      = squote :: decodeEntities l := by
  rw [decodeEntities]
  simp [List.take, List.drop]

theorem decodeEntities_plain (c : Char) (l : List Char) (h : ¬ c = '&') :
    decodeEntities (c :: l) = c :: decodeEntities l := by
  rw [decodeEntities]
  simp [h]

theorem escape_html_no_special (s : List Char) :
    ∀ x ∈ escape_html s, x ≠ '<' ∧ x ≠ '>' ∧ x ≠ dquote ∧ x ≠ squote := by
  induction s with
  | nil => simp [escape_html]
  | cons c rest ih =>
    intro x hx
    rw [escape_html_cons] at hx
    rcases List.mem_append.mp hx with hl | hr
    · exact escapeChar_no_special c x hl
    · exact ih x hr

theorem escape_html_ampEscaped (s : List Char) :
    ampEscaped (escape_html s) = true := by
  induction s with
  | nil =>
    have : escape_html [] = [] := by simp [escape_html]
    rw [this, ampEscaped_nil]
  | cons c rest ih =>
    rw [escape_html_cons]
    by_cases h1 : c = '&'
    · subst h1
      have he : escapeChar '&' = ['&', 'a', 'm', 'p', ';'] := by simp [escapeChar]
      rw [he]
      simp only [List.cons_append, List.nil_append]
      rw [ampEscaped_amp, ih]
    by_cases h2 : c = '<'
    · subst h2
      have he : escapeChar '<' = ['&', 'l', 't', ';'] := by simp [escapeChar]
      rw [he]
      simp only [List.cons_append, List.nil_append]
      rw [ampEscaped_lt, ih]
    by_cases h3 : c = '>'
    · subst h3
      have he : escapeChar '>' = ['&', 'g', 't', ';'] := by simp [escapeChar]
      rw [he]
      simp only [List.cons_append, List.nil_append]
      rw [ampEscaped_gt, ih]
    by_cases h4 : c = dquote
    · subst h4
      have he : escapeChar dquote = ['&', 'q', 'u', 'o', 't', ';'] := by
        simp [escapeChar, dquote]
      rw [he]
      simp only [List.cons_append, List.nil_append]
      rw [ampEscaped_quot, ih]
    by_cases h5 : c = squote
    · subst h5
      have he : escapeChar squote = ['&', '#', '3', '9', ';'] := by
        simp [escapeChar, squote, dquote]
      rw [he]
      simp only [List.cons_append, List.nil_append]
      rw [ampEscaped_num, ih]
    · have he : escapeChar c = [c] := by simp [escapeChar, h1, h2, h3, h4, h5]
      rw [he]
      simp only [List.cons_append, List.nil_append]
      rw [ampEscaped_plain c _ h1, ih]

theorem escape_html_decode (s : List Char) :
    decodeEntities (escape_html s) = s := by
  induction s with
  | nil =>
    have : escape_html [] = [] := by simp [escape_html]
    rw [this, decodeEntities_nil]
  | cons c rest ih =>
    rw [escape_html_cons]
    by_cases h1 : c = '&'
    · subst h1
      have he : escapeChar '&' = ['&', 'a', 'm', 'p', ';'] := by simp [escapeChar]
      rw [he]
      simp only [List.cons_append, List.nil_append]
      rw [decodeEntities_amp, ih]
    by_cases h2 : c = '<'
    · subst h2
      have he : escapeChar '<' = ['&', 'l', 't', ';'] := by simp [escapeChar]
      rw [he]
      simp only [List.cons_append, List.nil_append]
      rw [decodeEntities_lt, ih]
    by_cases h3 : c = '>'
    · subst h3
      have he : escapeChar '>' = ['&', 'g', 't', ';'] := by simp [escapeChar]
      rw [he]
      simp only [List.cons_append, List.nil_append]
      rw [decodeEntities_gt, ih]
    by_cases h4 : c = dquote
    · subst h4
      have he : escapeChar dquote = ['&', 'q', 'u', 'o', 't', ';'] := by
        simp [escapeChar, dquote]
      rw [he]
      simp only [List.cons_append, List.nil_append]
      rw [decodeEntities_quot, ih]
    by_cases h5 : c = squote
    · subst h5
      have he : escapeChar squote = ['&', '#', '3', '9', ';'] := by
        simp [escapeChar, squote, dquote]
      rw [he]
      simp only [List.cons_append, List.nil_append]
      rw [decodeEntities_num, ih]
    · have he : escapeChar c = [c] := by simp [escapeChar, h1, h2, h3, h4, h5]
      rw [he]
      simp only [List.cons_append, List.nil_append]
      rw [decodeEntities_plain c _ h1, ih]

/-- **C10.** For every input, `escape_html`'s output contains no `<`, `>`,
`"` or single-quote character at all; every `&` in the output introduces one
of the five HTML entities (no raw ampersand); and decoding the entities back
recovers the input exactly — so each special character is replaced by its
entity and all other characters are preserved in their original order. -/
theorem escape_html_spec (s : List Char) :
    (∀ x ∈ escape_html s, x ≠ '<' ∧ x ≠ '>' ∧ x ≠ dquote ∧ x ≠ squote) ∧
    ampEscaped (escape_html s) = true ∧
    decodeEntities (escape_html s) = s :=
  ⟨escape_html_no_special s, escape_html_ampEscaped s, escape_html_decode s⟩

/-! ## Domain data (`src/domain`) and processor configuration -/

/-- `WebContent` from domain/types.rs. -/
structure WebContent where
  title : Option String
  site_name : Option String
  content : Option String
deriving DecidableEq, Repr

/-- `ClassificationDecision` from domain/types.rs. -/
structure ClassificationDecision where
  spam : Bool
  reason : Option String
deriving DecidableEq, Repr

/-- `MessageJob` from domain/message.rs; `timestamp` is epoch milliseconds. -/
structure MessageJob where
  chat_id : Int
  chat_title : Option String
  message_id : Int
  from_id : Option Int
  from_display : String
  username : Option String
  text : String
  urls : List String
  is_group_member : Bool
  priority_score : Int
  timestamp : Int
deriving DecidableEq, Repr

/-- The slice of `AppConfig` (config/env.rs) the processor's observable
behaviour depends on. -/
structure AppConfig where
  admin_group_id : Option Int
  timezone : String
deriving DecidableEq, Repr

/-- `WebContentConfig` from config/env.rs (`fetch_timeout` in ms; the
timeout itself is absorbed into the HTTP oracle). -/
structure WebContentConfig where
  max_urls_per_message : Nat
  fetch_timeout : Nat
  content_max_length : Nat
deriving DecidableEq, Repr

/-- Whether `delete_spam` will attempt the admin notification at all:
`config.admin_group_id` must be present and nonzero (processor.rs
lines 189-190). -/
def adminConfigured (cfg : AppConfig) : Bool :=
  match cfg.admin_group_id with
  | some g => decide (g ≠ 0)
  | none => false

/-- `Result::is_ok`. -/
def exceptOk {ε α : Type} : Except ε α → Bool
  | .ok _ => true
  | .error _ => false

/-! ## Web content fetcher (`src/web_content.rs`)

The HTTP client, URL parser and readability extractor are oracles. -/

instance {ε α : Type} [DecidableEq ε] [DecidableEq α] : DecidableEq (Except ε α) := fun x y =>
  match x, y with
  | .ok a, .ok b =>
    if h : a = b then .isTrue (congrArg Except.ok h)
    else .isFalse (fun hc => h (Except.ok.inj hc))
  | .error a, .error b =>
    if h : a = b then .isTrue (congrArg Except.error h)
    else .isFalse (fun hc => h (Except.error.inj hc))
  | .ok _, .error _ => .isFalse (fun hc => Except.noConfusion hc)
  | .error _, .ok _ => .isFalse (fun hc => Except.noConfusion hc)

/-- The parts of a `reqwest::Response` `fetch` inspects: the status class
and the outcome of `response.text()`. -/
structure HttpResponse where
  status_success : Bool
  text : Except String String
deriving DecidableEq, Repr

/-- The fields of a readability `Article` that `fetch` consumes. -/
structure ArticleData where
  title : String
  site_name : Option String
  text_content : String
deriving DecidableEq, Repr

/-- Environment of `WebContentFetcher::fetch`: URL parsing, the HTTP send,
and the two fallible readability stages (keyed by response body). -/
structure FetchEnv where
  schemeOf : String → Option String
  send : String → Except String HttpResponse
  readabilityNew : String → Except String Unit
  readabilityParse : String → Except String ArticleData

/-- `clean_str` (web_content.rs lines 77-86). -/
def clean_str (value : Option String) : Option String :=
  value.bind fun v =>
    let trimmed := v.trim
    if trimmed.isEmpty then none else some trimmed

/-- Greedy UTF-8-byte-bounded truncation: keep leading characters while
their cumulative byte size fits the budget (the boundary-safe reading of
`String::truncate` at a byte index). -/
def truncBytes : Nat → List Char → List Char
  | _, [] => []
  | budget, c :: rest =>
    if c.utf8Size ≤ budget then c :: truncBytes (budget - c.utf8Size) rest else []

/-- The `text.truncate(content_max_length)` step of `fetch`. -/
def truncate_content (maxLen : Nat) (text : String) : String :=
  if text.utf8ByteSize > maxLen then ⟨truncBytes maxLen text.data⟩ else text

/-- `WebContentFetcher::fetch` (web_content.rs lines 19-74): unparsable or
non-http(s) URLs, non-success statuses and readability failures yield
`ok none`; transport errors from `send` and body-read errors propagate as
`error`. -/
def WebContentFetcher.fetch (fenv : FetchEnv) (cfg : WebContentConfig) (raw_url : String) :
    Except String (Option WebContent) :=
  match fenv.schemeOf raw_url with
  | none => .ok none
  | some sch =>
    if sch = "http" ∨ sch = "https" then
      match fenv.send raw_url with
      | .error e => .error ("failed to fetch " ++ raw_url ++ ": " ++ e)
      | .ok resp =>
        if resp.status_success then
          match resp.text with
          | .error e => .error e
          | .ok body =>
            match fenv.readabilityNew body with
            | .error _ => .ok none
            | .ok _ =>
              match fenv.readabilityParse body with
              | .error _ => .ok none
              | .ok article =>
                let text := truncate_content cfg.content_max_length article.text_content.trim
                .ok (some ⟨clean_str (some article.title), clean_str article.site_name,
                  if text.isEmpty then none else some text⟩)
        else .ok none
    else .ok none

/-! ## Batch processor (`src/tasks/processor.rs`)

`tokio::select!` races against the shutdown listener are modelled by
`Raced`; the processor's environment supplies each race's outcome. -/

/-- Outcome of racing an awaited operation against `shutdown.notified()`. -/
inductive Raced (α : Type)
  | completed (a : α)
  | interrupted
deriving DecidableEq, Repr

/-- Environment of one `handle_batch` run: the shutdown flag at each job's
loop entry, the raced fetch per (job index, url), the raced classifier
call, and the Telegram API outcomes per message id. -/
structure ProcEnv where
  shutdownAt : Nat → Bool
  fetch : Nat → String → Raced (Except String (Option WebContent))
  classify : String → Raced (Except String (List (String × ClassificationDecision)))
  deleteResult : Int → Except String Unit
  notifyResult : Int → Except String Unit

/-- `format_web_content` (processor.rs lines 246-264). -/
def format_web_content (content : WebContent) : String :=
  (match content.title with
   | some t => "제목: " ++ t ++ "\n"
   | none => "") ++
  (match content.site_name with
   | some s => "사이트: " ++ s ++ "\n"
   | none => "") ++
  (match content.content with
   | some t => "내용: " ++ t ++ "\n"
   | none => "")

/-- The entry text built for one job before URL enrichment (the `format!`
at processor.rs lines 97-105). -/
def baseEntry (job : MessageJob) : String :=
  toString job.message_id ++ ": [" ++ job.from_display ++ " | "
    ++ job.username.getD "-" ++ " | "
    ++ (if job.is_group_member then "멤버" else "비멤버")
    ++ "] [우선순위: " ++ toString job.priority_score ++ "] " ++ job.text

/-- Result of the per-job URL enrichment loop. -/
inductive EnrichResult
  | entryDone (entry : String)
  | interruptedAt (url : String)
  | fetchErr (e : String)
deriving DecidableEq, Repr

/-- The `for url in &job.urls` loop of `handle_batch`: each fetch is raced
against shutdown; a shutdown win aborts, a fetch `Err` propagates via `?`,
`Ok(None)` adds nothing, `Ok(Some(content))` appends the web-page block. -/
def enrichUrls (env : ProcEnv) (i : Nat) (entry : String) :
    List String → EnrichResult
  | [] => .entryDone entry
  | url :: rest =>
    match env.fetch i url with
    | .interrupted => .interruptedAt url
    | .completed (.error e) => .fetchErr e
    | .completed (.ok none) => enrichUrls env i entry rest
    | .completed (.ok (some content)) =>
      enrichUrls env i
        (entry ++ "\n웹페이지 정보 (" ++ url ++ "):\n" ++ format_web_content content) rest

/-- Which exit path `handle_batch` took. -/
inductive BatchExit
  | shutdownEntry (i : Nat)
  | shutdownFetch (i : Nat) (url : String)
  | fetchFailed (e : String)
  | emptyPrompt
  | shutdownClassify
  | classifyFailed (e : String)
  | applied
deriving DecidableEq, Repr

/-- Externally observable effects of one `handle_batch` run:
the prompt submitted to the classifier (if the call was started), the
`delete_message` attempts and the admin-notification attempts, both as
message-id sequences in order. -/
structure BatchEffects where
  classifierCalledWith : Option String
  deletes : List Int
  notifies : List Int
deriving DecidableEq, Repr

/-- HashMap `insert`: overwrite an existing binding, else append. -/
def insertA (l : List (String × MessageJob)) (k : String) (v : MessageJob) :
    List (String × MessageJob) :=
  if l.any (fun p => p.1 = k) then l.map (fun p => if p.1 = k then (k, v) else p)
  else l ++ [(k, v)]

/-- HashMap lookup. -/
def lookupA (l : List (String × MessageJob)) (k : String) : Option MessageJob :=
  (l.find? (fun p => p.1 = k)).map Prod.snd

/-- HashMap `remove` (drop the binding for `k`). -/
def removeA (l : List (String × MessageJob)) (k : String) : List (String × MessageJob) :=
  l.filter (fun p => ¬ p.1 = k)

/-- Result of the batch-assembly loop (processor.rs lines 82-130). -/
inductive AssembleResult
  | done (entries : List String) (lookup : List (String × MessageJob))
  | exit (e : BatchExit)
deriving DecidableEq, Repr

/-- The first `for job in batch` loop of `handle_batch`: at each iteration
check the shutdown flag, enrich the job's URLs, then record the prompt
entry and the id→job binding. -/
def assemble (env : ProcEnv) : Nat → List MessageJob → List String →
    List (String × MessageJob) → AssembleResult
  | _, [], entries, lookup => .done entries lookup
  | i, job :: rest, entries, lookup =>
    if env.shutdownAt i then .exit (.shutdownEntry i)
    else
      match enrichUrls env i (baseEntry job) job.urls with
      | .interruptedAt url => .exit (.shutdownFetch i url)
      | .fetchErr e => .exit (.fetchFailed e)
      | .entryDone entry =>
        assemble env (i + 1) rest (entries ++ [entry])
          (insertA lookup (toString job.message_id) job)

/-- `MessageProcessor::delete_spam` (processor.rs lines 175-212): attempt
the deletion; a failure propagates (the caller logs it); on success attempt
the admin notification when an admin group is configured and nonzero — a
notification failure is only logged. Returns the call's result plus the
delete / notify attempts it made. -/
def delete_spam (env : ProcEnv) (cfg : AppConfig) (job : MessageJob) :
    Except String Unit × List Int × List Int :=
  match env.deleteResult job.message_id with
  | .error e =>
    (.error ("failed to delete message " ++ toString job.message_id ++ ": " ++ e),
     [job.message_id], [])
  | .ok _ =>
    if adminConfigured cfg then (.ok (), [job.message_id], [job.message_id])
    else (.ok (), [job.message_id], [])

/-- `MessageProcessor::apply_classification` (processor.rs lines 151-173):
walk the classification map, skip non-spam decisions, remove the matching
job from the lookup and delete it; any `delete_spam` error is logged and
the loop continues. Returns the accumulated delete and notify attempts. -/
def apply_classification (env : ProcEnv) (cfg : AppConfig) :
    List (String × ClassificationDecision) → List (String × MessageJob) →
    List Int × List Int
  | [], _ => ([], [])
  | (message_id, d) :: rest, lookup =>
    if d.spam then
      match lookupA lookup message_id with
      | some job =>
        let r := delete_spam env cfg job
        let acc := apply_classification env cfg rest (removeA lookup message_id)
        (r.2.1 ++ acc.1, r.2.2 ++ acc.2)
      | none => apply_classification env cfg rest lookup
    else apply_classification env cfg rest lookup

/-- `MessageProcessor::handle_batch` (processor.rs lines 73-149). -/
def handle_batch (env : ProcEnv) (cfg : AppConfig) (batch : List MessageJob) :
    BatchExit × BatchEffects :=
  match assemble env 0 batch [] [] with
  | .exit e => (e, ⟨none, [], []⟩)
  | .done entries lookup =>
    if entries.isEmpty then (.emptyPrompt, ⟨none, [], []⟩)
    else
      let prompt := String.intercalate "\n\n" entries
      match env.classify prompt with
      | .interrupted => (.shutdownClassify, ⟨some prompt, [], []⟩)
      | .completed (.error e) => (.classifyFailed e, ⟨some prompt, [], []⟩)
      | .completed (.ok classification) =>
        let acc := apply_classification env cfg classification lookup
        (.applied, ⟨some prompt, acc.1, acc.2⟩)

/-- One iteration of `run_loop` on a non-empty queue: drain, then handle
the batch; nothing is ever pushed back. -/
def runOnce (env : ProcEnv) (cfg : AppConfig) (q : MessageQueue MessageJob) :
    (BatchExit × BatchEffects) × MessageQueue MessageJob :=
  let d := q.drain_ordered
  (handle_batch env cfg d.1, d.2)

/-- The user-id field rendered by `format_admin_log`. -/
def userIdString (job : MessageJob) : String :=
  match job.from_id with
  | some id => toString id
  | none => "unknown"

/-- `MessageProcessor::format_admin_log` (processor.rs lines 214-243);
`tzFormat` stands for chrono's timezone conversion and `%Y-%m-%d %H:%M:%S`
rendering. Every user-controlled field passes through `escape_html`. -/
def format_admin_log (tzFormat : Int → String) (job : MessageJob) (deleted_at : Int) : String :=
  "<b>스팸 삭제 로그</b>\n\n채팅방: "
    ++ String.mk (escape_html (job.chat_title.getD "Unknown").data)
    ++ "\n채팅방 ID: " ++ toString job.chat_id
    ++ "\n사용자: " ++ String.mk (escape_html job.from_display.data)
    ++ "\n사용자 ID: " ++ String.mk (escape_html (userIdString job).data)
    ++ "\n메시지 전송 시각: " ++ tzFormat job.timestamp
    ++ "\n삭제 완료 시각: " ++ tzFormat deleted_at
    ++ "\n\n스팸 메시지:\n<pre>" ++ String.mk (escape_html job.text.data) ++ "</pre>"

/-- The exits caused by a shutdown signal. -/
def BatchExit.isShutdownAbort : BatchExit → Bool
  | .shutdownEntry _ => true
  | .shutdownFetch _ _ => true
  | .shutdownClassify => true
  | _ => false

/-- The exits caused by a shutdown signal before the classifier call was
started (at a loop entry or during a URL fetch). -/
def BatchExit.isEnrichAbort : BatchExit → Bool
  | .shutdownEntry _ => true
  | .shutdownFetch _ _ => true
  | _ => false

/-- **C5.** If shutdown aborts `handle_batch` — at a job's loop entry,
during a URL fetch, or during the classifier call — the whole batch is
discarded: nothing is deleted, no admin notification is attempted, an abort
during enrichment means the classifier call was never started, and (the
batch having been drained) the queue after the iteration holds none of its
jobs — they are not re-queued. -/
theorem shutdown_mid_batch (env : ProcEnv) (cfg : AppConfig) (batch : List MessageJob)
    (q : MessageQueue MessageJob)
    (h : ((handle_batch env cfg batch).1).isShutdownAbort = true) :
    (handle_batch env cfg batch).2.deletes = [] ∧
    (handle_batch env cfg batch).2.notifies = [] ∧
    (((handle_batch env cfg batch).1).isEnrichAbort = true →
      (handle_batch env cfg batch).2.classifierCalledWith = none) ∧
    (runOnce env cfg q).2 = MessageQueue.new := by
  have hq : (runOnce env cfg q).2 = MessageQueue.new := by
    simp [runOnce, MessageQueue.drain_ordered, MessageQueue.new]
  cases ha : assemble env 0 batch [] [] with
  | exit e =>
    refine ⟨?_, ?_, ?_, hq⟩ <;> simp [handle_batch, ha]
  | done entries lookup =>
    by_cases hemp : entries.isEmpty
    · exfalso
      simp [handle_batch, ha, hemp, BatchExit.isShutdownAbort] at h
    · cases hc : env.classify (String.intercalate "\n\n" entries) with
      | interrupted =>
        refine ⟨?_, ?_, ?_, hq⟩ <;>
          simp [handle_batch, ha, hemp, hc, BatchExit.isEnrichAbort]
      | completed r =>
        exfalso
        cases r with
        | error e =>
          simp [handle_batch, ha, hemp, hc, BatchExit.isShutdownAbort] at h
        | ok cl =>
          simp [handle_batch, ha, hemp, hc, BatchExit.isShutdownAbort] at h

/-- Job used by the C5 witness. -/
def jobW5 : MessageJob :=
  ⟨100, none, 7, some 5, "u", none, "hello", ["http://a"], true, 0, 0⟩

/-- Environment for the C5 witness: the single URL fetch is interrupted by
the shutdown signal. -/
def envW5 : ProcEnv where
  shutdownAt := fun _ => false
  fetch := fun _ _ => .interrupted
  classify := fun _ => .completed (.ok [])
  deleteResult := fun _ => .ok ()
  notifyResult := fun _ => .ok ()

/-- Config used by several witnesses: admin group configured. -/
def cfgW : AppConfig := ⟨some 99, "Asia/Seoul"⟩

/-- Witness for C5: shutdown during the only job's only URL fetch — no
delete, no notification, no classifier call, queue left empty. -/
theorem shutdown_mid_batch_witness :
    (handle_batch envW5 cfgW [jobW5]).2.deletes = [] ∧
    (handle_batch envW5 cfgW [jobW5]).2.notifies = [] ∧
    (((handle_batch envW5 cfgW [jobW5]).1).isEnrichAbort = true →
      (handle_batch envW5 cfgW [jobW5]).2.classifierCalledWith = none) ∧
    (runOnce envW5 cfgW (MessageQueue.push MessageQueue.new .high jobW5)).2
      = MessageQueue.new :=
  shutdown_mid_batch envW5 cfgW [jobW5]
    (MessageQueue.push MessageQueue.new .high jobW5) (by decide)

/-- The delete attempt of `delete_spam` is unconditional, and its
notification attempt happens exactly when the delete succeeded and an admin
group is configured. -/
theorem delete_spam_parts (env : ProcEnv) (cfg : AppConfig) (job : MessageJob) :
    (delete_spam env cfg job).2.1 = [job.message_id] ∧
    (delete_spam env cfg job).2.2
      = (if adminConfigured cfg && exceptOk (env.deleteResult job.message_id)
         then [job.message_id] else []) := by
  unfold delete_spam
  cases hd : env.deleteResult job.message_id with
  | error e => simp [exceptOk]
  | ok u => cases ha : adminConfigured cfg <;> simp [exceptOk, ha]

/-- Helper: delete attempts ignore API outcomes; notifications are the
filter of the delete attempts by own-delete success and admin config. -/
theorem apply_classification_shape (env env2 : ProcEnv) (cfg : AppConfig)
    (cls : List (String × ClassificationDecision)) (lookup : List (String × MessageJob)) :
    (apply_classification env cfg cls lookup).1
      = (apply_classification env2 cfg cls lookup).1 ∧
    (apply_classification env cfg cls lookup).2
      = ((apply_classification env cfg cls lookup).1).filter
          (fun mid => adminConfigured cfg && exceptOk (env.deleteResult mid)) := by
  induction cls generalizing lookup with
  | nil => simp [apply_classification]
  | cons p rest ih =>
    obtain ⟨mid, d⟩ := p
    by_cases hs : d.spam
    · cases hl : lookupA lookup mid with
      | none =>
        simpa [apply_classification, hs, hl] using ih lookup
      | some job =>
        obtain ⟨hd1, hd2⟩ := delete_spam_parts env cfg job
        obtain ⟨hd1b, _⟩ := delete_spam_parts env2 cfg job
        obtain ⟨ihd, ihn⟩ := ih (removeA lookup mid)
        constructor
        · simp [apply_classification, hs, hl, hd1, hd1b, ihd]
        · simp only [apply_classification, hs, hl, if_true]
          rw [hd1, hd2, ihn]
          by_cases hok :
              (adminConfigured cfg && exceptOk (env.deleteResult job.message_id)) = true <;>
            simp [hok]
    · simpa [apply_classification, hs] using ih lookup

/-- **C7.** Per-message independence in `apply_classification`: the
sequence of delete attempts does not depend on the outcome of any delete or
notification call (so one flagged message's failure never aborts its
siblings), and the notification attempts are exactly the deletes whose own
deletion succeeded while an admin group is configured — each message's
outcome depends only on its own API results. -/
theorem apply_classification_independent (env env2 : ProcEnv) (cfg : AppConfig)
    (cls : List (String × ClassificationDecision)) (lookup : List (String × MessageJob)) :
    (apply_classification env cfg cls lookup).1
      = (apply_classification env2 cfg cls lookup).1 ∧
    (apply_classification env cfg cls lookup).2
      = ((apply_classification env cfg cls lookup).1).filter
          (fun mid => adminConfigured cfg && exceptOk (env.deleteResult mid)) :=
  apply_classification_shape env env2 cfg cls lookup

/-- The delete attempts `apply_classification` should produce: one per
classification entry that is flagged as spam and matches a job in the
lookup, in order. -/
def expectedDeletes (cls : List (String × ClassificationDecision))
    (lookup : List (String × MessageJob)) : List Int :=
  cls.filterMap fun p =>
    if p.2.spam then (lookupA lookup p.1).map (fun j => j.message_id) else none

theorem lookupA_removeA_ne (lookup : List (String × MessageJob)) (k k2 : String)
    (h : ¬ k2 = k) :
    lookupA (removeA lookup k) k2 = lookupA lookup k2 := by
  induction lookup with
  | nil => simp [lookupA, removeA]
  | cons p rest ih =>
    by_cases hpk : p.1 = k
    · have hp2 : ¬ p.1 = k2 := by
        rw [hpk]
        intro hc
        exact h hc.symm
      rw [show removeA (p :: rest) k = removeA rest k by
            simp [removeA, List.filter_cons, hpk],
          show lookupA (p :: rest) k2 = lookupA rest k2 by
            simp [lookupA, List.find?_cons, hp2]]
      exact ih
    · have hsplit : removeA (p :: rest) k = p :: removeA rest k := by
        simp [removeA, List.filter_cons, hpk]
      by_cases hpk2 : p.1 = k2
      · rw [hsplit,
            show lookupA (p :: removeA rest k) k2 = some p.2 by
              simp [lookupA, List.find?_cons, hpk2],
            show lookupA (p :: rest) k2 = some p.2 by
              simp [lookupA, List.find?_cons, hpk2]]
      · rw [hsplit,
            show lookupA (p :: removeA rest k) k2 = lookupA (removeA rest k) k2 by
              simp [lookupA, List.find?_cons, hpk2],
            show lookupA (p :: rest) k2 = lookupA rest k2 by
              simp [lookupA, List.find?_cons, hpk2]]
        exact ih

theorem lookupA_mem (lookup : List (String × MessageJob)) (k : String) (j : MessageJob)
    (h : lookupA lookup k = some j) :
    ∃ p, p ∈ lookup ∧ p.1 = k ∧ p.2 = j := by
  unfold lookupA at h
  cases hf : List.find? (fun p => p.1 = k) lookup with
  | none => rw [hf] at h; simp at h
  | some p =>
    rw [hf] at h
    simp only [Option.map_some', Option.some.injEq] at h
    refine ⟨p, List.mem_of_find?_eq_some hf, ?_, h⟩
    have := List.find?_some hf
    simpa using this

theorem lookupA_canonical (lookup : List (String × MessageJob)) (k : String) (j : MessageJob)
    (hcanon : ∀ p ∈ lookup, p.1 = toString p.2.message_id)
    (h : lookupA lookup k = some j) : k = toString j.message_id := by
  obtain ⟨p, hp, h1, h2⟩ := lookupA_mem lookup k j h
  rw [← h1, hcanon p hp, h2]

theorem key_unique {cls : List (String × ClassificationDecision)}
    (hnd : (cls.map Prod.fst).Nodup) {mid : String} {d d2 : ClassificationDecision}
    (h1 : (mid, d) ∈ cls) (h2 : (mid, d2) ∈ cls) : d = d2 := by
  induction cls with
  | nil => cases h1
  | cons p rest ih =>
    simp only [List.map_cons, List.nodup_cons] at hnd
    obtain ⟨hni, hrest⟩ := hnd
    rcases List.mem_cons.mp h1 with h1h | h1t
    · rcases List.mem_cons.mp h2 with h2h | h2t
      · have : (mid, d) = (mid, d2) := h1h.trans h2h.symm
        simpa using this
      · exfalso
        apply hni
        rw [← h1h]
        exact List.mem_map.mpr ⟨(mid, d2), h2t, rfl⟩
    · rcases List.mem_cons.mp h2 with h2h | h2t
      · exfalso
        apply hni
        rw [← h2h]
        exact List.mem_map.mpr ⟨(mid, d), h1t, rfl⟩
      · exact ih hrest h1t h2t

theorem count_filterMap {α : Type} (f : α → Option Int) (l : List α) (b : Int) :
    (l.filterMap f).count b = l.countP (fun a => f a = some b) := by
  induction l with
  | nil => simp
  | cons a l ih =>
    cases hf : f a with
    | none => simp [List.filterMap_cons, hf, ih, List.countP_cons]
    | some c =>
      by_cases hc : c = b <;>
        simp [List.filterMap_cons, hf, List.count_cons, List.countP_cons, ih, hc]

theorem count_filter_of_pred (p : Int → Bool) (l : List Int) (b : Int)
    (h : p b = true) : (l.filter p).count b = l.count b := by
  induction l with
  | nil => simp
  | cons a l ih =>
    by_cases hab : a = b
    · subst hab
      simp [List.filter_cons, h, List.count_cons, ih]
    · cases hp : p a <;> simp [List.filter_cons, hp, List.count_cons, hab, ih]

theorem countP_eq_one_of_nodup_mem {α : Type} [DecidableEq α] {l : List α} {a : α}
    (hnd : l.Nodup) (hmem : a ∈ l) : l.countP (fun x => decide (x = a)) = 1 := by
  induction l with
  | nil => cases hmem
  | cons b l ih =>
    rw [List.countP_cons]
    rcases List.mem_cons.mp hmem with rfl | hmt
    · have hnotin : a ∉ l := (List.nodup_cons.mp hnd).1
      have hz : l.countP (fun x => decide (x = a)) = 0 := by
        apply List.countP_eq_zero.mpr
        intro x hx
        simp only [decide_eq_true_eq]
        intro hxa
        exact hnotin (hxa ▸ hx)
      simp [hz]
    · have hba : ¬ b = a := fun hc => (List.nodup_cons.mp hnd).1 (hc ▸ hmt)
      simp [ih (List.nodup_cons.mp hnd).2 hmt, hba]

/-- Helper: with distinct classification keys, the delete attempts are
exactly `expectedDeletes`. -/
theorem apply_classification_deletes (env : ProcEnv) (cfg : AppConfig) :
    ∀ (cls : List (String × ClassificationDecision)) (lookup : List (String × MessageJob)),
      (cls.map Prod.fst).Nodup →
      (apply_classification env cfg cls lookup).1 = expectedDeletes cls lookup := by
  intro cls
  induction cls with
  | nil => intro lookup _; simp [apply_classification, expectedDeletes]
  | cons p rest ih =>
    intro lookup hnd
    obtain ⟨mid, d⟩ := p
    simp only [List.map_cons, List.nodup_cons] at hnd
    obtain ⟨hni, hrest⟩ := hnd
    by_cases hs : d.spam
    · cases hl : lookupA lookup mid with
      | none =>
        simp [apply_classification, expectedDeletes, hs, hl, List.filterMap_cons]
        exact ih lookup hrest
      | some job =>
        obtain ⟨hd1, _⟩ := delete_spam_parts env cfg job
        have hre : expectedDeletes rest (removeA lookup mid) = expectedDeletes rest lookup := by
          unfold expectedDeletes
          apply List.filterMap_congr
          intro q hq
          have hqk : ¬ q.1 = mid := by
            intro hc
            exact hni (List.mem_map.mpr ⟨q, hq, hc⟩)
          rw [lookupA_removeA_ne lookup mid q.1 hqk]
        simp only [apply_classification, hs, if_true, hl, hd1]
        rw [ih (removeA lookup mid) hrest, hre]
        simp [expectedDeletes, List.filterMap_cons, hs, hl]
    · simp only [apply_classification, hs, if_false, Bool.false_eq_true]
      rw [ih lookup hrest]
      simp [expectedDeletes, List.filterMap_cons, hs]

theorem expectedDeletes_filterKnown (cls : List (String × ClassificationDecision))
    (lookup : List (String × MessageJob)) :
    expectedDeletes (cls.filter (fun p => (lookupA lookup p.1).isSome)) lookup
      = expectedDeletes cls lookup := by
  induction cls with
  | nil => simp [expectedDeletes]
  | cons p rest ih =>
    by_cases hk : (lookupA lookup p.1).isSome
    · simp only [List.filter_cons, hk, if_true]
      unfold expectedDeletes at *
      simp [List.filterMap_cons, ih]
    · have hnone : lookupA lookup p.1 = none := by
        cases hx : lookupA lookup p.1 with
        | none => rfl
        | some j => rw [hx] at hk; simp at hk
      simp only [List.filter_cons, hk, if_false]
      unfold expectedDeletes at *
      simp [List.filterMap_cons, hnone, ih]

/-- Helper: anatomy of an entry that contributes a value to
`expectedDeletes` under canonical lookup keys. -/
theorem expectedDeletes_contrib (lookup : List (String × MessageJob))
    (hcanon : ∀ p ∈ lookup, p.1 = toString p.2.message_id)
    (p : String × ClassificationDecision) (v : Int)
    (hfp : (if p.2.spam then (lookupA lookup p.1).map (fun j => j.message_id) else none)
      = some v) :
    p.2.spam = true ∧ p.1 = toString v := by
  by_cases hps : p.2.spam
  · rw [if_pos hps] at hfp
    cases hlk : lookupA lookup p.1 with
    | none => rw [hlk] at hfp; simp at hfp
    | some j2 =>
      rw [hlk] at hfp
      simp only [Option.map_some', Option.some.injEq] at hfp
      refine ⟨hps, ?_⟩
      rw [← hfp]
      exact lookupA_canonical lookup p.1 j2 hcanon hlk
  · rw [if_neg hps] at hfp
    cases hfp

theorem expectedDeletes_count_one
    (cls : List (String × ClassificationDecision)) (lookup : List (String × MessageJob))
    (hnd : (cls.map Prod.fst).Nodup)
    (hcanon : ∀ p ∈ lookup, p.1 = toString p.2.message_id)
    (mid : String) (d : ClassificationDecision) (job : MessageJob)
    (hmem : (mid, d) ∈ cls) (hs : d.spam = true) (hl : lookupA lookup mid = some job) :
    (expectedDeletes cls lookup).count job.message_id = 1 := by
  have hmid : mid = toString job.message_id := lookupA_canonical lookup mid job hcanon hl
  have hpred : ∀ p ∈ cls,
      ((if p.2.spam then (lookupA lookup p.1).map (fun j => j.message_id) else none)
          = some job.message_id) ↔ p = (mid, d) := by
    intro p hp
    constructor
    · intro hfp
      obtain ⟨hps, hkey⟩ := expectedDeletes_contrib lookup hcanon p job.message_id hfp
      have hkeq : p.1 = mid := by rw [hkey, ← hmid]
      have hmem2 : (mid, p.2) ∈ cls := by
        rw [← hkeq]
        exact hp
      have hpd : p.2 = d := key_unique hnd hmem2 hmem
      rw [← hkeq, ← hpd]
    · intro hpe
      rw [hpe]
      simp [hs, hl]
  rw [expectedDeletes, count_filterMap]
  have h1 : cls.countP
        (fun p => (if p.2.spam then (lookupA lookup p.1).map (fun j => j.message_id) else none)
          = some job.message_id)
      = cls.countP (fun p => decide (p = (mid, d))) := by
    apply List.countP_congr
    intro p hp
    simp only [decide_eq_true_eq]
    exact hpred p hp
  rw [h1]
  exact countP_eq_one_of_nodup_mem (List.Nodup.of_map Prod.fst hnd) hmem

theorem expectedDeletes_not_mem
    (cls : List (String × ClassificationDecision)) (lookup : List (String × MessageJob))
    (hnd : (cls.map Prod.fst).Nodup)
    (hcanon : ∀ p ∈ lookup, p.1 = toString p.2.message_id)
    (mid : String) (d : ClassificationDecision) (job : MessageJob)
    (hmem : (mid, d) ∈ cls) (hs : d.spam = false) (hl : lookupA lookup mid = some job) :
    job.message_id ∉ expectedDeletes cls lookup := by
  have hmid : mid = toString job.message_id := lookupA_canonical lookup mid job hcanon hl
  intro hin
  obtain ⟨p, hp, hfp⟩ := List.mem_filterMap.mp hin
  obtain ⟨hps, hkey⟩ := expectedDeletes_contrib lookup hcanon p job.message_id hfp
  have hkeq : p.1 = mid := by rw [hkey, ← hmid]
  have hmem2 : (mid, p.2) ∈ cls := by
    rw [← hkeq]
    exact hp
  have hpd : p.2 = d := key_unique hnd hmem2 hmem
  rw [hpd] at hps
  rw [hps] at hs
  cases hs

/-- **C6 (amended).** Given a drained batch's lookup (whose keys are the
rendered message ids) and a classification map with distinct keys, and an
admin group configured (nonzero): the delete attempts are exactly one per
spam=true entry matching a job, in order (`expectedDeletes`); the
notification attempts are exactly the deletes whose own deletion succeeded;
each matched spam=true id is deleted exactly once and (if its delete
succeeded) notified exactly once; spam=false ids are never deleted; and
entries whose id matches no job are ignored entirely. -/
theorem apply_classification_spec (env : ProcEnv) (cfg : AppConfig)
    (cls : List (String × ClassificationDecision)) (lookup : List (String × MessageJob))
    (hnd : (cls.map Prod.fst).Nodup)
    (hcanon : ∀ p ∈ lookup, p.1 = toString p.2.message_id)
    (hadmin : adminConfigured cfg = true) :
    (apply_classification env cfg cls lookup).1 = expectedDeletes cls lookup ∧
    (apply_classification env cfg cls lookup).2
      = (expectedDeletes cls lookup).filter (fun mid => exceptOk (env.deleteResult mid)) ∧
    (∀ mid d job, (mid, d) ∈ cls → d.spam = true → lookupA lookup mid = some job →
      (apply_classification env cfg cls lookup).1.count job.message_id = 1 ∧
      (exceptOk (env.deleteResult job.message_id) = true →
        (apply_classification env cfg cls lookup).2.count job.message_id = 1)) ∧
    (∀ mid d job, (mid, d) ∈ cls → d.spam = false → lookupA lookup mid = some job →
      job.message_id ∉ (apply_classification env cfg cls lookup).1) ∧
    apply_classification env cfg (cls.filter (fun p => (lookupA lookup p.1).isSome)) lookup
      = apply_classification env cfg cls lookup := by
  have hdel := apply_classification_deletes env cfg cls lookup hnd
  have hshape := (apply_classification_shape env env cfg cls lookup).2
  have hnotif : (apply_classification env cfg cls lookup).2
      = (expectedDeletes cls lookup).filter (fun mid => exceptOk (env.deleteResult mid)) := by
    rw [hshape, hdel]
    simp [hadmin]
  refine ⟨hdel, hnotif, ?_, ?_, ?_⟩
  · intro mid d job hmem hs hl
    have hcount := expectedDeletes_count_one cls lookup hnd hcanon mid d job hmem hs hl
    refine ⟨by rw [hdel]; exact hcount, fun hok => ?_⟩
    rw [hnotif,
      count_filter_of_pred (fun mid => exceptOk (env.deleteResult mid))
        (expectedDeletes cls lookup) job.message_id hok,
      hcount]
  · intro mid d job hmem hs hl
    rw [hdel]
    exact expectedDeletes_not_mem cls lookup hnd hcanon mid d job hmem hs hl
  · have hndf : ((cls.filter (fun p => (lookupA lookup p.1).isSome)).map Prod.fst).Nodup :=
      List.Nodup.sublist (List.Sublist.map Prod.fst (List.filter_sublist cls)) hnd
    have h1 : (apply_classification env cfg
          (cls.filter (fun p => (lookupA lookup p.1).isSome)) lookup).1
        = (apply_classification env cfg cls lookup).1 := by
      rw [apply_classification_deletes env cfg _ lookup hndf, hdel]
      exact expectedDeletes_filterKnown cls lookup
    have h2 : (apply_classification env cfg
          (cls.filter (fun p => (lookupA lookup p.1).isSome)) lookup).2
        = (apply_classification env cfg cls lookup).2 := by
      rw [(apply_classification_shape env env cfg _ lookup).2, hshape, h1]
    exact Prod.ext h1 h2

/-- Job used by C6's counterexample and witness (message id 1). -/
def jobC6 : MessageJob := ⟨100, none, 1, none, "u", none, "buy now", [], false, 5, 0⟩

/-- Second job for C6's witness (message id 2). -/
def jobC6b : MessageJob := ⟨100, none, 2, none, "v", none, "hello", [], true, 0, 0⟩

/-- Environment for C6: every Telegram call succeeds. -/
def envC6 : ProcEnv where
  shutdownAt := fun _ => false
  fetch := fun _ _ => .completed (.ok none)
  classify := fun _ => .completed (.ok [("1", ⟨true, none⟩)])
  deleteResult := fun _ => .ok ()
  notifyResult := fun _ => .ok ()

/-- Counterexample for C6 as stated: with no admin group configured, the
flagged message "1" is deleted successfully, yet zero (not one) admin
notifications are sent. -/
theorem apply_classification_no_admin_counterexample :
    (apply_classification envC6 ⟨none, "Asia/Seoul"⟩ [("1", ⟨true, none⟩)] [("1", jobC6)]).1
      = [1] ∧
    (apply_classification envC6 ⟨none, "Asia/Seoul"⟩ [("1", ⟨true, none⟩)] [("1", jobC6)]).2
      = [] := by
  decide

/-- Witness for C6: the spec's §8 scenario (ids "1" spam, "2" ham, admin
configured) through the amended theorem. -/
theorem apply_classification_spec_witness :
    (apply_classification envC6 cfgW [("1", ⟨true, none⟩), ("2", ⟨false, none⟩)]
        [("1", jobC6), ("2", jobC6b)]).1
      = expectedDeletes [("1", ⟨true, none⟩), ("2", ⟨false, none⟩)]
          [("1", jobC6), ("2", jobC6b)] ∧
    (apply_classification envC6 cfgW [("1", ⟨true, none⟩), ("2", ⟨false, none⟩)]
        [("1", jobC6), ("2", jobC6b)]).2
      = (expectedDeletes [("1", ⟨true, none⟩), ("2", ⟨false, none⟩)]
          [("1", jobC6), ("2", jobC6b)]).filter
          (fun mid => exceptOk (envC6.deleteResult mid)) :=
  ⟨(apply_classification_spec envC6 cfgW [("1", ⟨true, none⟩), ("2", ⟨false, none⟩)]
      [("1", jobC6), ("2", jobC6b)] (by decide) (by decide) (by decide)).1,
   (apply_classification_spec envC6 cfgW [("1", ⟨true, none⟩), ("2", ⟨false, none⟩)]
      [("1", jobC6), ("2", jobC6b)] (by decide) (by decide) (by decide)).2.1⟩

theorem enrichUrls_ok (env : ProcEnv) (i : Nat) (entry : String) (urls : List String)
    (hf : ∀ u, ∃ r, env.fetch i u = .completed (.ok r)) :
    ∃ e2, enrichUrls env i entry urls = .entryDone e2 := by
  induction urls generalizing entry with
  | nil => exact ⟨entry, rfl⟩
  | cons url rest ih =>
    obtain ⟨r, hr⟩ := hf url
    cases r with
    | none =>
      rw [show enrichUrls env i entry (url :: rest) = enrichUrls env i entry rest by
        simp [enrichUrls, hr]]
      exact ih entry
    | some content =>
      rw [show enrichUrls env i entry (url :: rest)
          = enrichUrls env i
              (entry ++ "\n웹페이지 정보 (" ++ url ++ "):\n" ++ format_web_content content)
              rest by
        simp [enrichUrls, hr]]
      exact ih _

theorem assemble_ok (env : ProcEnv)
    (hf : ∀ j u, ∃ r, env.fetch j u = .completed (.ok r))
    (hs : ∀ j, env.shutdownAt j = false) :
    ∀ (batch : List MessageJob) (i : Nat) (entries : List String)
      (lookup : List (String × MessageJob)),
      ∃ es lk, assemble env i batch entries lookup = .done es lk ∧
        es.length = entries.length + batch.length := by
  intro batch
  induction batch with
  | nil =>
    intro i entries lookup
    exact ⟨entries, lookup, rfl, by simp [assemble]⟩
  | cons job rest ih =>
    intro i entries lookup
    obtain ⟨e2, he⟩ := enrichUrls_ok env i (baseEntry job) job.urls (fun u => hf i u)
    obtain ⟨es, lk, hr, hlen⟩ :=
      ih (i + 1) (entries ++ [e2]) (insertA lookup (toString job.message_id) job)
    refine ⟨es, lk, ?_, ?_⟩
    · rw [show assemble env i (job :: rest) entries lookup
          = assemble env (i + 1) rest (entries ++ [e2])
              (insertA lookup (toString job.message_id) job) by
        simp [assemble, hs i, he]]
      exact hr
    · rw [hlen]
      simp
      omega

/-- **C2 (amended).** Per-URL fetch outcomes that `WebContentFetcher::fetch`
itself maps to "no content" — an unparsable or non-http(s) URL, a
non-success HTTP status, or a readability init/parse failure — are
non-fatal. But a fetch that returns an error (a transport failure from
`send`, or a body-read failure) is propagated by `handle_batch`'s `?`:
the whole batch is discarded without a classifier call and without any
delete or notification. When every raced fetch completes with `Ok` and
shutdown is never signalled, a non-empty batch is always submitted to the
classifier. -/
theorem fetch_failure_semantics (fenv : FetchEnv) (wcfg : WebContentConfig) (url : String)
    (env : ProcEnv) (cfg : AppConfig) (batch : List MessageJob) :
    (fenv.schemeOf url = none → WebContentFetcher.fetch fenv wcfg url = .ok none) ∧
    (∀ sch, fenv.schemeOf url = some sch → ¬ (sch = "http" ∨ sch = "https") →
      WebContentFetcher.fetch fenv wcfg url = .ok none) ∧
    (∀ sch resp, fenv.schemeOf url = some sch → (sch = "http" ∨ sch = "https") →
      fenv.send url = .ok resp → resp.status_success = false →
      WebContentFetcher.fetch fenv wcfg url = .ok none) ∧
    (∀ sch resp body e2, fenv.schemeOf url = some sch → (sch = "http" ∨ sch = "https") →
      fenv.send url = .ok resp → resp.status_success = true → resp.text = .ok body →
      fenv.readabilityNew body = .error e2 →
      WebContentFetcher.fetch fenv wcfg url = .ok none) ∧
    (∀ sch resp body e2, fenv.schemeOf url = some sch → (sch = "http" ∨ sch = "https") →
      fenv.send url = .ok resp → resp.status_success = true → resp.text = .ok body →
      fenv.readabilityNew body = .ok () → fenv.readabilityParse body = .error e2 →
      WebContentFetcher.fetch fenv wcfg url = .ok none) ∧
    (∀ sch e, fenv.schemeOf url = some sch → (sch = "http" ∨ sch = "https") →
      fenv.send url = .error e →
      WebContentFetcher.fetch fenv wcfg url
        = .error ("failed to fetch " ++ url ++ ": " ++ e)) ∧
    (∀ e, (handle_batch env cfg batch).1 = .fetchFailed e →
      (handle_batch env cfg batch).2 = ⟨none, [], []⟩) ∧
    ((∀ j u, ∃ r, env.fetch j u = .completed (.ok r)) →
      (∀ j, env.shutdownAt j = false) → batch ≠ [] →
      ∃ prompt, (handle_batch env cfg batch).2.classifierCalledWith = some prompt) := by
  refine ⟨?_, ?_, ?_, ?_, ?_, ?_, ?_, ?_⟩
  · intro h
    simp [WebContentFetcher.fetch, h]
  · intro sch h1 h2
    simp [WebContentFetcher.fetch, h1, h2]
  · intro sch resp h1 h2 h3 h4
    simp [WebContentFetcher.fetch, h1, h2, h3, h4]
  · intro sch resp body e2 h1 h2 h3 h4 h5 h6
    simp [WebContentFetcher.fetch, h1, h2, h3, h4, h5, h6]
  · intro sch resp body e2 h1 h2 h3 h4 h5 h6 h7
    simp [WebContentFetcher.fetch, h1, h2, h3, h4, h5, h6, h7]
  · intro sch e h1 h2 h3
    simp [WebContentFetcher.fetch, h1, h2, h3]
  · intro e he
    cases ha : assemble env 0 batch [] [] with
    | exit e2 => simp [handle_batch, ha]
    | done entries lookup =>
      exfalso
      by_cases hemp : entries.isEmpty
      · rw [show (handle_batch env cfg batch).1 = .emptyPrompt by
          simp [handle_batch, ha, hemp]] at he
        cases he
      · cases hc : env.classify (String.intercalate "\n\n" entries) with
        | interrupted =>
          rw [show (handle_batch env cfg batch).1 = .shutdownClassify by
            simp [handle_batch, ha, hemp, hc]] at he
          cases he
        | completed r =>
          cases r with
          | error e3 =>
            rw [show (handle_batch env cfg batch).1 = .classifyFailed e3 by
              simp [handle_batch, ha, hemp, hc]] at he
            cases he
          | ok cl =>
            rw [show (handle_batch env cfg batch).1 = .applied by
              simp [handle_batch, ha, hemp, hc]] at he
            cases he
  · intro hf hs hne
    obtain ⟨es, lk, ha, hlen⟩ := assemble_ok env hf hs batch 0 [] []
    have hespos : 0 < es.length := by
      rw [hlen]
      simp
      cases batch with
      | nil => exact absurd rfl hne
      | cons a l => simp
    have hemp : es.isEmpty = false := by
      cases es with
      | nil => simp at hespos
      | cons a l => rfl
    cases hc : env.classify (String.intercalate "\n\n" es) with
    | interrupted =>
      exact ⟨String.intercalate "\n\n" es, by simp [handle_batch, ha, hemp, hc]⟩
    | completed r =>
      cases r with
      | error e3 =>
        exact ⟨String.intercalate "\n\n" es, by simp [handle_batch, ha, hemp, hc]⟩
      | ok cl =>
        exact ⟨String.intercalate "\n\n" es, by simp [handle_batch, ha, hemp, hc]⟩

/-- Job used by C2's counterexample and witness: one URL attached. -/
def jobC2 : MessageJob :=
  ⟨100, none, 1, none, "u", none, "check this", ["http://x"], false, 0, 0⟩

/-- Environment for C2's counterexample: the URL fetch completes with a
transport error. -/
def envC2 : ProcEnv where
  shutdownAt := fun _ => false
  fetch := fun _ _ => .completed (.error "connection failed")
  classify := fun _ => .completed (.ok [])
  deleteResult := fun _ => .ok ()
  notifyResult := fun _ => .ok ()

/-- Counterexample for C2 as stated: a failed URL fetch is not treated as
"no content" — `handle_batch` returns the error, the batch is discarded and
the classifier is never called. -/
theorem fetch_error_discards_batch :
    handle_batch envC2 cfgW [jobC2]
      = (.fetchFailed "connection failed", ⟨none, [], []⟩) := by
  decide

/-- Web config for C2's witness. -/
def wcfgW : WebContentConfig := ⟨5, 10000, 2000⟩

/-- Fetch environment whose URL parses with a non-http scheme. -/
def fenvW2a : FetchEnv where
  schemeOf := fun _ => some "ftp"
  send := fun _ => .error "unreachable"
  readabilityNew := fun _ => .ok ()
  readabilityParse := fun _ => .error "unreachable"

/-- Fetch environment whose HTTP send times out. -/
def fenvW2b : FetchEnv where
  schemeOf := fun _ => some "http"
  send := fun _ => .error "timeout"
  readabilityNew := fun _ => .ok ()
  readabilityParse := fun _ => .error "unreachable"

/-- Processor environment where every fetch completes with no content. -/
def envW2ok : ProcEnv where
  shutdownAt := fun _ => false
  fetch := fun _ _ => .completed (.ok none)
  classify := fun _ => .completed (.ok [])
  deleteResult := fun _ => .ok ()
  notifyResult := fun _ => .ok ()

/-- Witness for C2 (amended): a non-http URL yields no content; a transport
error propagates; a batch whose exit is a fetch failure has no effects; and
an all-`Ok` environment still reaches the classifier. -/
theorem fetch_failure_semantics_witness :
    WebContentFetcher.fetch fenvW2a wcfgW "ftp://x" = .ok none ∧
    WebContentFetcher.fetch fenvW2b wcfgW "http://x"
      = .error ("failed to fetch http://x: timeout") ∧
    (handle_batch envC2 cfgW [jobC2]).2 = ⟨none, [], []⟩ ∧
    ∃ prompt, (handle_batch envW2ok cfgW [jobC2]).2.classifierCalledWith = some prompt :=
  ⟨(fetch_failure_semantics fenvW2a wcfgW "ftp://x" envC2 cfgW []).2.1 "ftp" rfl (by decide),
   (fetch_failure_semantics fenvW2b wcfgW "http://x" envC2 cfgW []).2.2.2.2.2.1 "http"
      "timeout" rfl (Or.inl rfl) rfl,
   (fetch_failure_semantics fenvW2a wcfgW "x" envC2 cfgW [jobC2]).2.2.2.2.2.2.1
      "connection failed" (by decide),
   (fetch_failure_semantics fenvW2a wcfgW "x" envW2ok cfgW [jobC2]).2.2.2.2.2.2.2
      (fun _ _ => ⟨none, rfl⟩) (fun _ => rfl) (by decide)⟩

end Spam
